import Mathlib

/-
Shallow embedding of dacut/ec2-by-name (src/ec2.rs, src/ops.rs,
src/ops/set_no_stop.rs, src/error.rs).  The AWS EC2 client, the DNS resolver,
getopts and humantime are external collaborators; they are modelled at their
boundary: the client is a map from a filter to the list of page results its
paginator yields, the resolver is a map from a host name to a resolution
result.  Instance-id sets (std HashSet<String>) are modelled as Finset String.
The asynchronous fan-out uses futures::stream::FuturesOrdered, which polls the
queued futures concurrently but yields their results in the order they were
pushed; the drain loops are therefore embedded as structural recursion over
the list of branch results in dispatch order.  Loops are instrumented with
counts of the branch results they consumed and, for the orchestrator, with the
list of argument lists the continuation was invoked with, so that awaiting and
invocation behaviour is stated explicitly.
-/

namespace Ec2ByName

/-- Error type of src/error.rs.  Wrapped collaborator errors (ResolveError,
humantime parse errors, SDK errors) are carried as message strings. -/
inductive Error where
  | InvalidDuration (msg : String)
  | InvalidTime (msg : String)
  | InvalidUsage (msg : String)
  | ResolveError (msg : String)
  | Runtime (msg : String)
  | SdkError (msg : String)
  | ShowUsage
deriving DecidableEq, Repr

/-- EC2 filter (aws_sdk_ec2::model::Filter) as built by the strategies: one
name plus the value list. -/
structure Ec2Filter where
  name : String
  values : List String
deriving DecidableEq, Repr

/-- IP address (std::net::IpAddr), a tagged union of the two variants; the
payload is the rendered textual form that to_string produces. -/
inductive IpAddr where
  | v4 (addr : String)
  | v6 (addr : String)
deriving DecidableEq, Repr

/-- EC2 instance as seen by get_instance_ids_by_filter: only the optional
instance_id field is consumed. -/
structure Instance where
  instance_id : Option String
deriving DecidableEq, Repr

/-- EC2 reservation: optional id and optional list of instances. -/
structure Reservation where
  reservation_id : Option String
  instances : Option (List Instance)
deriving DecidableEq, Repr

/-- One page of a describe-instances response: an optional reservation list. -/
structure DescribeInstancesOutput where
  reservations : Option (List Reservation)
deriving DecidableEq, Repr

/-- Boundary model of the EC2 client: for each filter, the list of page
results the describe-instances paginator yields for that filter. -/
structure Ec2Client where
  pages : Ec2Filter → List (Except Error DescribeInstancesOutput)

/-- Boundary model of the DNS collaborator: lookup_ip resolves one host name
to a list of IP addresses or fails. -/
structure DnsResolver where
  lookup_ip : String → Except Error (List IpAddr)

/-- Insertion of one instance into the result set (src/ec2.rs lines 193-198):
an instance whose instance_id is absent is skipped. -/
def insertInstance (results : Finset String) (inst : Instance) : Finset String :=
  match inst.instance_id with
  | some instance_id => insert instance_id results
  | none => results

/-- Insertion of one reservation (src/ec2.rs lines 191-199): an absent
instances list defaults to empty. -/
def insertReservation (results : Finset String) (res : Reservation) : Finset String :=
  (res.instances.getD []).foldl insertInstance results

/-- Instance ids contributed by one successful page (src/ec2.rs lines
191-199): an absent reservations list defaults to empty. -/
def pageInstanceIds (out : DescribeInstancesOutput) (results : Finset String) : Finset String :=
  (out.reservations.getD []).foldl insertReservation results

/-- Page-draining loop of get_instance_ids_by_filter (src/ec2.rs lines
188-200): accumulate ids page by page; the question-mark operator on a failed
page returns that error at once, discarding the accumulated ids. -/
def collectPages : List (Except Error DescribeInstancesOutput) → Finset String →
    Except Error (Finset String)
  | [], results => .ok results
  | page :: rest, results =>
    match page with
    | .error e => .error e
    | .ok out => collectPages rest (pageInstanceIds out results)

/-- Pagination Collector, get_instance_ids_by_filter (src/ec2.rs lines
179-205): issue the paged describe-instances query for one filter and drain
every page into a set. -/
def get_instance_ids_by_filter (ec2 : Ec2Client) (filter : Ec2Filter) :
    Except Error (Finset String) :=
  collectPages (ec2.pages filter) ∅

/-- Filter Strategy find_instances_by_public_ipv4 (src/ec2.rs lines 110-120).
The second component records the describe-instances queries the strategy
issued; it is empty when the strategy short-circuits on a non-IPv4 address. -/
def find_instances_by_public_ipv4 (ec2 : Ec2Client) (address : IpAddr) :
    Except Error (Finset String) × List Ec2Filter :=
  match address with
  | .v4 addr =>
    let filter : Ec2Filter := { name := "ip-address", values := [addr] }
    (get_instance_ids_by_filter ec2 filter, [filter])
  | .v6 _ => (.ok ∅, [])

/-- Filter Strategy find_instances_by_public_eip_ipv4 (src/ec2.rs lines
122-135), instrumented with the issued queries. -/
def find_instances_by_public_eip_ipv4 (ec2 : Ec2Client) (address : IpAddr) :
    Except Error (Finset String) × List Ec2Filter :=
  match address with
  | .v4 addr =>
    let filter : Ec2Filter :=
      { name := "network-interface.addresses.association.public-ip", values := [addr] }
    (get_instance_ids_by_filter ec2 filter, [filter])
  | .v6 _ => (.ok ∅, [])

/-- Filter Strategy find_instances_by_private_ipv4 (src/ec2.rs lines 137-147),
instrumented with the issued queries. -/
def find_instances_by_private_ipv4 (ec2 : Ec2Client) (address : IpAddr) :
    Except Error (Finset String) × List Ec2Filter :=
  match address with
  | .v4 addr =>
    let filter : Ec2Filter := { name := "private-ip-address", values := [addr] }
    (get_instance_ids_by_filter ec2 filter, [filter])
  | .v6 _ => (.ok ∅, [])

/-- Filter Strategy find_instances_by_private_netif_ipv4 (src/ec2.rs lines
149-161), instrumented with the issued queries. -/
def find_instances_by_private_netif_ipv4 (ec2 : Ec2Client) (address : IpAddr) :
    Except Error (Finset String) × List Ec2Filter :=
  match address with
  | .v4 addr =>
    let filter : Ec2Filter :=
      { name := "network-interface.addresses.private-ip-address", values := [addr] }
    (get_instance_ids_by_filter ec2 filter, [filter])
  | .v6 _ => (.ok ∅, [])

/-- Filter Strategy find_instances_by_netif_ipv6 (src/ec2.rs lines 163-177):
the only strategy applicable to IPv6 addresses; it short-circuits on IPv4. -/
def find_instances_by_netif_ipv6 (ec2 : Ec2Client) (address : IpAddr) :
    Except Error (Finset String) × List Ec2Filter :=
  match address with
  | .v4 _ => (.ok ∅, [])
  | .v6 addr =>
    let filter : Ec2Filter :=
      { name := "network-interface.ipv6-addresses.ipv6-address", values := [addr] }
    (get_instance_ids_by_filter ec2 filter, [filter])

/-- Fail-fast FuturesOrdered drain loop shared by find_instances_by_ip
(src/ec2.rs lines 96-105), find_instances (lines 71-76) and the
find_instances_then of the compiled binary (src/main.rs lines 283-296): union
each successful set into the accumulator, return the first error at once (the
remaining queued futures are dropped, not awaited).  The second component
counts how many branch results the loop consumed. -/
def drainFailFast : List (Except Error (Finset String)) → Finset String →
    Except Error (Finset String) × Nat
  | [], all_instance_ids => (.ok all_instance_ids, 0)
  | result :: rest, all_instance_ids =>
    match result with
    | .ok instance_ids =>
      let step := drainFailFast rest (all_instance_ids ∪ instance_ids)
      (step.fst, step.snd + 1)
    | .error e => (.error e, 1)

/-- Branch results of the five Filter Strategies as pushed into the
FuturesOrdered by find_instances_by_ip, in dispatch order (src/ec2.rs lines
88-92). -/
def byIpBranches (ec2 : Ec2Client) (address : IpAddr) :
    List (Except Error (Finset String)) :=
  [(find_instances_by_public_ipv4 ec2 address).fst,
   (find_instances_by_public_eip_ipv4 ec2 address).fst,
   (find_instances_by_private_ipv4 ec2 address).fst,
   (find_instances_by_private_netif_ipv4 ec2 address).fst,
   (find_instances_by_netif_ipv6 ec2 address).fst]

/-- Per-Address Resolver find_instances_by_ip (src/ec2.rs lines 81-108):
dispatch the five strategies, drain their results in dispatch order
(FuturesOrdered yields in push order), failing fast on the first error.  The
second component counts the branch results the loop consumed (awaited). -/
def find_instances_by_ip (ec2 : Ec2Client) (address : IpAddr) :
    Except Error (Finset String) × Nat :=
  drainFailFast (byIpBranches ec2 address) ∅

/-- Per-Name Resolver find_instances (src/ec2.rs lines 60-79; the copy in
src/main.rs lines 304-323 is behaviourally identical): obtain the resolver
(resolver_from_system_conf, whose failure propagates), resolve the name
(lookup_ip, whose failure propagates), then dispatch a Per-Address Resolver
per address and drain fail-fast, unioning the results. -/
def find_instances (conf : Except Error DnsResolver) (ec2 : Ec2Client)
    (name : String) : Except Error (Finset String) :=
  match conf with
  | .error e => .error e
  | .ok resolver =>
    match resolver.lookup_ip name with
    | .error e => .error e
    | .ok ip_addrs =>
      (drainFailFast (ip_addrs.map fun ip => (find_instances_by_ip ec2 ip).fst) ∅).fst

/-- Drain-all loop of find_instances_then (src/ec2.rs lines 31-48): union each
successful set, record only the first error, and keep draining to the end of
the queue.  The third component counts the branch results awaited. -/
def drainRecordFirst : List (Except Error (Finset String)) → Finset String →
    Option Error → Finset String × Option Error × Nat
  | [], all_instance_ids, first_error => (all_instance_ids, first_error, 0)
  | result :: rest, all_instance_ids, first_error =>
    let step :=
      match result with
      | .ok instance_ids => drainRecordFirst rest (all_instance_ids ∪ instance_ids) first_error
      | .error e =>
        drainRecordFirst rest all_instance_ids
          (if first_error.isNone then some e else first_error)
    (step.fst, step.snd.fst, step.snd.snd + 1)

instance {ε α : Type} [DecidableEq ε] [DecidableEq α] : DecidableEq (Except ε α) :=
  fun a b =>
    match a, b with
    | .ok x, .ok y => if h : x = y then .isTrue (by rw [h]) else .isFalse (by simp [h])
    | .ok _, .error _ => .isFalse (by simp)
    | .error _, .ok _ => .isFalse (by simp)
    | .error e, .error f => if h : e = f then .isTrue (by rw [h]) else .isFalse (by simp [h])

/-- Observable outcome of one find_instances_then run: the returned value, the
list of argument lists the continuation was invoked with, and the number of
per-name branch results the drain loop awaited. -/
structure OrchestratorRun where
  result : Except Error Unit
  invocations : List (List String)
  awaited : Nat
deriving DecidableEq, Repr

/-- Resolution Orchestrator find_instances_then of the module copy
(src/ec2.rs lines 18-58, the version called by src/ops.rs and src/ops/*):
dispatch find_instances for every name in order, drain every result recording
the first error, then either return that error without invoking the
continuation, or sort the deduplicated union and invoke the continuation
exactly once with it.  The orchestrator of the compiled binary (src/main.rs,
which declares no modules) differs on the error path and is modelled
separately as find_instances_then_main; the two copies agree on the success
path. -/
def find_instances_then (conf : Except Error DnsResolver) (ec2 : Ec2Client)
    (names : List String) (cont : List String → Except Error Unit) : OrchestratorRun :=
  let drained := drainRecordFirst (names.map (find_instances conf ec2)) ∅ none
  match drained.snd.fst with
  | some e => ⟨.error e, [], drained.snd.snd⟩
  | none =>
    let all_instance_ids := Finset.sort (· ≤ ·) drained.fst
    ⟨cont all_instance_ids, [all_instance_ids], drained.snd.snd⟩

/-- Observable outcome of one run of the find_instances_then in src/main.rs:
the returned exit code, the errors printed to stderr, the list of argument
lists the continuation was invoked with, and the number of per-name branch
results the loop awaited. -/
structure MainRun where
  exit_code : Nat
  stderr : List Error
  invocations : List (List String)
  awaited : Nat
deriving DecidableEq, Repr

/-- Resolution Orchestrator of the compiled binary, find_instances_then in
src/main.rs (lines 269-302; main.rs declares no modules, so it alone is the
compiled crate): dispatch find_instances for every name in order and drain the
results in yield order, but on the first error print it to stderr and return
ExitCode::FAILURE at once (lines 291-294), without awaiting the remaining
branches; on success sort the deduplicated union and invoke the continuation
exactly once with it.  Its fail-fast loop is the same drain as
find_instances_by_ip and is embedded by drainFailFast; the continuation
returns an exit code. -/
def find_instances_then_main (conf : Except Error DnsResolver) (ec2 : Ec2Client)
    (names : List String) (cont : List String → Nat) : MainRun :=
  let drained := drainFailFast (names.map (find_instances conf ec2)) ∅
  match drained.fst with
  | .error e => ⟨1, [e], [], drained.snd⟩
  | .ok all_instance_ids =>
    let sorted := Finset.sort (· ≤ ·) all_instance_ids
    ⟨cont sorted, [], [sorted], drained.snd⟩

/-- Successful-set projection of one branch result: the carried set on ok,
empty on error. -/
def okSet : Except Error (Finset String) → Finset String
  | .ok instance_ids => instance_ids
  | .error _ => ∅

/-- Union of the successful sets in a branch-result list. -/
def unionOks (results : List (Except Error (Finset String))) : Finset String :=
  results.foldl (fun acc result => acc ∪ okSet result) ∅

/-- First error in a branch-result list, in the order the FuturesOrdered
yields them (dispatch order). -/
def firstErrorOf : List (Except Error (Finset String)) → Option Error
  | [] => none
  | .error e :: _ => some e
  | .ok _ :: rest => firstErrorOf rest

/-- Index of the first errored branch in a branch-result list, in dispatch
order. -/
def firstErrorIdx : List (Except Error (Finset String)) → Option Nat
  | [] => none
  | .error _ :: _ => some 0
  | .ok _ :: rest => (firstErrorIdx rest).map (· + 1)

/-- First error in a page-result list, in page order. -/
def firstPageError : List (Except Error DescribeInstancesOutput) → Option Error
  | [] => none
  | .error e :: _ => some e
  | .ok _ :: rest => firstPageError rest

/-- Union of the instance ids of a list of successful pages. -/
def pagesUnion (outs : List DescribeInstancesOutput) : Finset String :=
  outs.foldl (fun acc out => pageInstanceIds out acc) ∅

/-- Two-digit zero-padded decimal field of the chrono format output. -/
def pad2 (n : Nat) : String :=
  if n < 10 then "0" ++ toString n else toString n

/-- Four-digit zero-padded year field of the chrono format output. -/
def pad4 (n : Nat) : String :=
  if n < 10 then "000" ++ toString n
  else if n < 100 then "00" ++ toString n
  else if n < 1000 then "0" ++ toString n
  else toString n

/-- Gregorian civil date (year, month, day) from a count of days since
1970-01-01: boundary model of the chrono collaborator, standard
civil-from-days algorithm, valid for dates from the epoch on. -/
def civilFromDays (z : Nat) : Nat × Nat × Nat :=
  let era_z := z + 719468
  let era := era_z / 146097
  let doe := era_z % 146097
  let yoe := ((doe + doe / 36524) - (doe / 1460 + doe / 146096)) / 365
  let y := yoe + era * 400
  let doy := doe - ((365 * yoe + yoe / 4) - yoe / 100)
  let mp := (5 * doy + 2) / 153
  let d := (doy - (153 * mp + 2) / 5) + 1
  let m := if mp < 10 then mp + 3 else mp - 9
  (if m ≤ 2 then y + 1 else y, m, d)

/-- Rendering of the chrono format string "%Y-%m-%dT%H:%M:%SZ" over a UTC
timestamp given as seconds since the Unix epoch (boundary model of the chrono
collaborator used on line 39 of src/ops/set_no_stop.rs). -/
def format_timestamp (secs : Nat) : String :=
  let days := secs / 86400
  let rem := secs % 86400
  let ymd := civilFromDays days
  pad4 ymd.fst ++ "-" ++ pad2 ymd.snd.fst ++ "-" ++ pad2 ymd.snd.snd ++ "T" ++
    pad2 (rem / 3600) ++ ":" ++ pad2 (rem % 3600 / 60) ++ ":" ++ pad2 (rem % 60) ++ "Z"

/-- Duration selection of set_no_stop_before (src/ops/set_no_stop.rs lines
24-35), with getopts and humantime modelled at their boundary: opt_d is the
already-parsed --duration in seconds, opt_t the already-parsed --time as its
distance from the Unix epoch in seconds (time.duration_since(UNIX_EPOCH)). -/
def no_stop_duration_secs (opt_d opt_t : Option Nat) : Except Error Nat :=
  if opt_d.isSome && opt_t.isSome then
    .error (.InvalidUsage "Cannot specify both duration and time")
  else
    match opt_d with
    | some d => .ok d
    | none =>
      match opt_t with
      | some t => .ok t
      | none => .error (.InvalidUsage "Must specify either duration or time")

/-- Value given to the NoStopBefore tag by set_no_stop_before
(src/ops/set_no_stop.rs lines 29-40): the selected duration is added to
Utc::now() and the sum is formatted with "%Y-%m-%dT%H:%M:%SZ"; now is the
current time in seconds since the Unix epoch. -/
def no_stop_tag_value (now : Nat) (opt_d opt_t : Option Nat) : Except Error String :=
  (no_stop_duration_secs opt_d opt_t).map fun duration => format_timestamp (now + duration)

/-- Specification-side tag value, following the words of the claim: the
current UTC time plus the parsed --duration, or the parsed --time absolute
time itself, formatted at second precision. -/
def claimed_no_stop_tag_value (now : Nat) (opt_d opt_t : Option Nat) : Except Error String :=
  if opt_d.isSome && opt_t.isSome then
    .error (.InvalidUsage "Cannot specify both duration and time")
  else
    match opt_d with
    | some d => .ok (format_timestamp (now + d))
    | none =>
      match opt_t with
      | some t => .ok (format_timestamp t)
      | none => .error (.InvalidUsage "Must specify either duration or time")

/-- Instance state (aws_sdk_ec2::model::InstanceState) as consumed by
instance_state_to_string: only the optional state name, already rendered to
its string form (as_str). -/
structure InstanceState where
  name : Option String
deriving DecidableEq, Repr

/-- Instance state change (aws_sdk_ec2::model::InstanceStateChange) as
consumed by print_instance_state_changes. -/
structure InstanceStateChange where
  instance_id : Option String
  previous_state : Option InstanceState
  current_state : Option InstanceState
deriving DecidableEq, Repr

/-- instance_state_to_string (src/ops.rs lines 63-73): the state name, or the
empty string when the state or its name is absent. -/
def instance_state_to_string (instance_state : Option InstanceState) : String :=
  match instance_state with
  | some st =>
    match st.name with
    | some name => name
    | none => ""
  | none => ""

/-- print_instance_state_changes (src/ops.rs lines 54-61): one printed line
per reported state change, in the format id colon previous arrow current; an
absent change list defaults to empty.  The printed lines are returned. -/
def print_instance_state_changes (changes : Option (List InstanceStateChange)) : List String :=
  (changes.getD []).map fun change =>
    (change.instance_id.getD "") ++ ": " ++ instance_state_to_string change.previous_state
      ++ " -> " ++ instance_state_to_string change.current_state

/-- Specification-side rendering of a state name, following the words of the
claim: a missing previous or current state name renders as the empty string. -/
def specStateName (st : Option InstanceState) : String :=
  match st with
  | none => ""
  | some s => s.name.getD ""

/-- Specification-side rendering of one transition line, following the words
of the claim. -/
def specTransitionLine (change : InstanceStateChange) : String :=
  change.instance_id.getD "" ++ ": " ++ specStateName change.previous_state ++ " -> "
    ++ specStateName change.current_state

/-- Claim-side definition, following the words of claim C6: the first error
among the branch results when they are observed in the stated completion
order, given as the list of branch indices ordered by completion. -/
def firstErrorInCompletionOrder (completion_order : List Nat)
    (branches : List (Except Error (Finset String))) : Option Error :=
  (completion_order.filterMap fun i =>
    match branches[i]? with
    | some (Except.error e) => some e
    | _ => none).head?

/-- Demo page holding one reservation with the given instance ids. -/
def pageOf (ids : List String) : DescribeInstancesOutput :=
  ⟨some [⟨some "r-0", some (ids.map fun id => ⟨some id⟩)⟩]⟩

/-- Demo resolver: two names resolving to one IPv4 address each, one name
whose resolution fails, all other names resolving to zero addresses. -/
def dnsDemo : DnsResolver :=
  ⟨fun name =>
    if name = "a.example" then .ok [.v4 "10.0.0.1"]
    else if name = "b.example" then .ok [.v4 "10.0.0.2"]
    else if name = "bad.example" then .error (.ResolveError "no such host")
    else .ok []⟩

/-- Demo client: the two demo addresses match instances through the private-ip
filter, with an overlapping instance; every other query yields one page with
no reservations. -/
def ec2Demo : Ec2Client :=
  ⟨fun filter =>
    if filter = { name := "private-ip-address", values := ["10.0.0.1"] } then
      [.ok (pageOf ["i-b", "i-a"])]
    else if filter = { name := "private-ip-address", values := ["10.0.0.2"] } then
      [.ok (pageOf ["i-a", "i-c"])]
    else [.ok ⟨none⟩]⟩

/-- Demo client whose paginator yields the two pages of the example in the
claim C4 sources. -/
def ec2TwoPages : Ec2Client :=
  ⟨fun _ => [.ok (pageOf ["i1", "i2"]), .ok (pageOf ["i3"])]⟩

/-- Demo client on which two of the five filter strategies fail, with distinct
errors. -/
def ec2TwoFail : Ec2Client :=
  ⟨fun filter =>
    if filter.name = "ip-address" then [.error (.Runtime "public-ip query failed")]
    else if filter.name = "network-interface.addresses.association.public-ip" then
      [.error (.Runtime "public-eip query failed")]
    else [.ok ⟨none⟩]⟩

/-- Demo page with an absent reservations list. -/
def outMissing : DescribeInstancesOutput := ⟨none⟩

/-- Demo page with a reservation whose instances list is absent, and a
reservation holding one instance without an id next to one with an id. -/
def outMixed : DescribeInstancesOutput :=
  ⟨some [⟨some "r-1", none⟩, ⟨none, some [⟨none⟩, ⟨some "i-present"⟩]⟩]⟩

/-- Demo client yielding the two degenerate pages. -/
def ec2Degenerate : Ec2Client :=
  ⟨fun _ => [.ok outMissing, .ok outMixed]⟩

lemma foldl_union_okSet (rs : List (Except Error (Finset String))) (acc : Finset String) :
    rs.foldl (fun a r => a ∪ okSet r) acc = acc ∪ unionOks rs := by
  induction rs generalizing acc with
  | nil => simp [unionOks]
  | cons r rs ih =>
    simp only [unionOks, List.foldl_cons]
    rw [ih (acc ∪ okSet r), ih (∅ ∪ okSet r)]
    simp [Finset.union_assoc]

lemma unionOks_cons (r : Except Error (Finset String)) (rs : List (Except Error (Finset String))) :
    unionOks (r :: rs) = okSet r ∪ unionOks rs := by
  show List.foldl (fun acc result => acc ∪ okSet result) ∅ (r :: rs) = okSet r ∪ unionOks rs
  rw [List.foldl_cons, foldl_union_okSet]
  simp

lemma mem_unionOks {a : String} {rs : List (Except Error (Finset String))} :
    a ∈ unionOks rs ↔ ∃ r ∈ rs, a ∈ okSet r := by
  induction rs with
  | nil => simp [unionOks]
  | cons r rs ih => simp [unionOks_cons, ih]

lemma unionOks_perm {rs₁ rs₂ : List (Except Error (Finset String))} (h : rs₁.Perm rs₂) :
    unionOks rs₁ = unionOks rs₂ := by
  ext a
  simp only [mem_unionOks]
  exact ⟨fun ⟨r, hr, ha⟩ => ⟨r, h.mem_iff.mp hr, ha⟩,
    fun ⟨r, hr, ha⟩ => ⟨r, h.mem_iff.mpr hr, ha⟩⟩

lemma firstErrorOf_eq_none_iff (rs : List (Except Error (Finset String))) :
    firstErrorOf rs = none ↔ ∀ e : Error, Except.error e ∉ rs := by
  induction rs with
  | nil => simp [firstErrorOf]
  | cons r rs ih =>
    cases r with
    | ok s => simp [firstErrorOf, ih]
    | error e =>
      simp only [firstErrorOf]
      exact ⟨fun h => absurd h (by simp), fun h => absurd (List.mem_cons_self _ _) (h e)⟩

lemma drainFailFast_fst (rs : List (Except Error (Finset String))) (acc : Finset String) :
    (drainFailFast rs acc).fst =
      match firstErrorOf rs with
      | some e => .error e
      | none => .ok (acc ∪ unionOks rs) := by
  induction rs generalizing acc with
  | nil => simp [drainFailFast, firstErrorOf, unionOks]
  | cons r rs ih =>
    cases r with
    | ok ids =>
      simp only [drainFailFast, firstErrorOf]
      rw [ih]
      cases h : firstErrorOf rs <;> simp [unionOks_cons, okSet, Finset.union_assoc]
    | error e => simp [drainFailFast, firstErrorOf]

lemma drainFailFast_of_first_error (rs : List (Except Error (Finset String)))
    (acc : Finset String) (e : Error) (i : Nat)
    (hi : firstErrorIdx rs = some i) (he : firstErrorOf rs = some e) :
    drainFailFast rs acc = (.error e, i + 1) := by
  induction rs generalizing acc i with
  | nil => simp [firstErrorIdx] at hi
  | cons r rs ih =>
    cases r with
    | error f =>
      simp only [firstErrorIdx, Option.some.injEq] at hi
      simp only [firstErrorOf, Option.some.injEq] at he
      subst hi he
      rfl
    | ok ids =>
      simp only [firstErrorIdx, Option.map_eq_some'] at hi
      obtain ⟨j, hj, rfl⟩ := hi
      simp only [firstErrorOf] at he
      simp [drainFailFast, ih (acc ∪ ids) j hj he]

lemma drainRecordFirst_spec (rs : List (Except Error (Finset String)))
    (acc : Finset String) (fe : Option Error) :
    drainRecordFirst rs acc fe =
      (acc ∪ unionOks rs,
       (match fe with | some e => some e | none => firstErrorOf rs),
       rs.length) := by
  induction rs generalizing acc fe with
  | nil => cases fe <;> simp [drainRecordFirst, unionOks, firstErrorOf]
  | cons r rs ih =>
    cases r with
    | ok ids =>
      simp only [drainRecordFirst]
      rw [ih]
      cases fe <;> simp [firstErrorOf, unionOks_cons, okSet, Finset.union_assoc]
    | error e =>
      simp only [drainRecordFirst]
      rw [ih]
      cases fe <;> simp [firstErrorOf, unionOks_cons, okSet]

lemma drainRecordFirst_run (rs : List (Except Error (Finset String))) :
    drainRecordFirst rs ∅ none = (unionOks rs, firstErrorOf rs, rs.length) := by
  rw [drainRecordFirst_spec]
  simp

lemma find_instances_then_eq (conf : Except Error DnsResolver) (ec2 : Ec2Client)
    (names : List String) (cont : List String → Except Error Unit) :
    find_instances_then conf ec2 names cont =
      match firstErrorOf (names.map (find_instances conf ec2)) with
      | some e => ⟨.error e, [], names.length⟩
      | none =>
        ⟨cont (Finset.sort (· ≤ ·) (unionOks (names.map (find_instances conf ec2)))),
         [Finset.sort (· ≤ ·) (unionOks (names.map (find_instances conf ec2)))],
         names.length⟩ := by
  unfold find_instances_then
  rw [drainRecordFirst_run]
  cases firstErrorOf (names.map (find_instances conf ec2)) <;> simp

lemma find_instances_then_invocations (conf : Except Error DnsResolver) (ec2 : Ec2Client)
    (names : List String) (cont : List String → Except Error Unit) :
    (find_instances_then conf ec2 names cont).invocations =
      match firstErrorOf (names.map (find_instances conf ec2)) with
      | some _ => []
      | none => [Finset.sort (· ≤ ·) (unionOks (names.map (find_instances conf ec2)))] := by
  rw [find_instances_then_eq]
  cases firstErrorOf (names.map (find_instances conf ec2)) <;> rfl

lemma firstErrorOf_none_iff_of_perm {rs₁ rs₂ : List (Except Error (Finset String))}
    (h : rs₁.Perm rs₂) : firstErrorOf rs₁ = none ↔ firstErrorOf rs₂ = none := by
  rw [firstErrorOf_eq_none_iff, firstErrorOf_eq_none_iff]
  exact ⟨fun hn e he => hn e (h.mem_iff.mpr he), fun hn e he => hn e (h.mem_iff.mp he)⟩

lemma firstErrorOf_cons_self (r : Except Error (Finset String))
    (rs : List (Except Error (Finset String))) :
    firstErrorOf (r :: r :: rs) = firstErrorOf (r :: rs) := by
  cases r <;> simp [firstErrorOf]

lemma unionOks_cons_self (r : Except Error (Finset String))
    (rs : List (Except Error (Finset String))) :
    unionOks (r :: r :: rs) = unionOks (r :: rs) := by
  ext a
  simp only [mem_unionOks, List.mem_cons]
  constructor
  · rintro ⟨r', h, ha⟩
    rcases h with h | h | h
    · exact ⟨r', Or.inl h, ha⟩
    · exact ⟨r', Or.inl h, ha⟩
    · exact ⟨r', Or.inr h, ha⟩
  · rintro ⟨r', h, ha⟩
    rcases h with h | h
    · exact ⟨r', Or.inl h, ha⟩
    · exact ⟨r', Or.inr (Or.inr h), ha⟩

lemma collectPages_spec (pages : List (Except Error DescribeInstancesOutput))
    (acc : Finset String) :
    collectPages pages acc =
      match firstPageError pages with
      | some e => .error e
      | none =>
        .ok ((pages.filterMap Except.toOption).foldl (fun a out => pageInstanceIds out a) acc) := by
  induction pages generalizing acc with
  | nil => rfl
  | cons p rest ih =>
    cases p with
    | error e => rfl
    | ok out =>
      simp only [collectPages, firstPageError]
      rw [ih]
      cases firstPageError rest <;> simp [List.filterMap_cons, Except.toOption]

lemma mem_insertInstance {id : String} (acc : Finset String) (inst : Instance) :
    id ∈ insertInstance acc inst ↔ id ∈ acc ∨ inst.instance_id = some id := by
  cases h : inst.instance_id <;> simp [insertInstance, h, eq_comm, or_comm]

lemma mem_foldl_insertInstance {id : String} (insts : List Instance) (acc : Finset String) :
    id ∈ insts.foldl insertInstance acc ↔
      id ∈ acc ∨ ∃ inst ∈ insts, inst.instance_id = some id := by
  induction insts generalizing acc with
  | nil => simp
  | cons inst insts ih =>
    simp only [List.foldl_cons]
    rw [ih]
    simp [mem_insertInstance, or_assoc]

lemma mem_insertReservation {id : String} (acc : Finset String) (res : Reservation) :
    id ∈ insertReservation acc res ↔
      id ∈ acc ∨ ∃ inst ∈ res.instances.getD [], inst.instance_id = some id := by
  simp [insertReservation, mem_foldl_insertInstance]

lemma mem_foldl_insertReservation {id : String} (rss : List Reservation) (acc : Finset String) :
    id ∈ rss.foldl insertReservation acc ↔
      id ∈ acc ∨ ∃ res ∈ rss, ∃ inst ∈ res.instances.getD [], inst.instance_id = some id := by
  induction rss generalizing acc with
  | nil => simp
  | cons res rest ih =>
    simp only [List.foldl_cons]
    rw [ih]
    simp [mem_insertReservation, or_assoc]

lemma mem_pageInstanceIds {id : String} (out : DescribeInstancesOutput) (acc : Finset String) :
    id ∈ pageInstanceIds out acc ↔
      id ∈ acc ∨ ∃ res ∈ out.reservations.getD [],
        ∃ inst ∈ res.instances.getD [], inst.instance_id = some id := by
  simp [pageInstanceIds, mem_foldl_insertReservation]

lemma mem_foldl_pageInstanceIds {id : String} (outs : List DescribeInstancesOutput)
    (acc : Finset String) :
    id ∈ outs.foldl (fun a out => pageInstanceIds out a) acc ↔
      id ∈ acc ∨ ∃ out ∈ outs, ∃ res ∈ out.reservations.getD [],
        ∃ inst ∈ res.instances.getD [], inst.instance_id = some id := by
  induction outs generalizing acc with
  | nil => simp
  | cons out rest ih =>
    simp only [List.foldl_cons]
    rw [ih]
    simp [mem_pageInstanceIds, or_assoc]

lemma firstPageError_map_ok (outs : List DescribeInstancesOutput) :
    firstPageError (outs.map Except.ok) = none := by
  induction outs with
  | nil => rfl
  | cons out rest ih => simp [firstPageError, ih]

lemma filterMap_toOption_map_ok (outs : List DescribeInstancesOutput) :
    List.filterMap Except.toOption
      (outs.map (Except.ok : DescribeInstancesOutput → Except Error DescribeInstancesOutput)) =
      outs := by
  induction outs with
  | nil => rfl
  | cons out rest ih =>
    simp only [List.map_cons, List.filterMap_cons, Except.toOption]
    rw [ih]

lemma instance_state_to_string_eq (st : Option InstanceState) :
    instance_state_to_string st = specStateName st := by
  cases st with
  | none => rfl
  | some s =>
    cases s with
    | mk n => cases n <;> rfl

lemma ec2_module_orchestrator_drains_all
    (conf : Except Error DnsResolver) (ec2 : Ec2Client) (names : List String)
    (cont : List String → Except Error Unit) (e : Error)
    (h : firstErrorOf (names.map (find_instances conf ec2)) = some e) :
    find_instances_then conf ec2 names cont = ⟨.error e, [], names.length⟩ := by
  rw [find_instances_then_eq, h]

/-- C1 counterexample: on a concrete two-name input whose first branch fails,
the orchestrator of the compiled binary (find_instances_then in src/main.rs)
awaits only one of the two dispatched branches before returning, so it does
not await every dispatched branch to completion as the claim states. -/
theorem C1_counterexample :
    firstErrorOf (["bad.example", "a.example"].map (find_instances (.ok dnsDemo) ec2Demo)) =
      some (.ResolveError "no such host") ∧
    find_instances_then_main (.ok dnsDemo) ec2Demo ["bad.example", "a.example"]
        (fun _ => 0) =
      ⟨1, [.ResolveError "no such host"], [], 1⟩ ∧
    (1 : Nat) ≠ (["bad.example", "a.example"] : List String).length :=
  ⟨by decide, by decide, by decide⟩

/-- C1 (amended): when at least one per-name resolution fails, the Resolution
Orchestrator of the compiled binary (find_instances_then in src/main.rs)
prints exactly the first error encountered in yield (dispatch) order to
stderr, returns ExitCode::FAILURE, and never invokes the continuation — but
it does not await every dispatched branch: the loop stops at the first error,
consuming only the branches up to and including the first failing one and
leaving the later ones unawaited.  (Only the unwired module copy in
src/ec2.rs drains every branch, per ec2_module_orchestrator_drains_all.) -/
theorem C1_main_orchestrator_fail_fast
    (conf : Except Error DnsResolver) (ec2 : Ec2Client) (names : List String)
    (cont : List String → Nat) (e : Error) (i : Nat)
    (hi : firstErrorIdx (names.map (find_instances conf ec2)) = some i)
    (he : firstErrorOf (names.map (find_instances conf ec2)) = some e) :
    find_instances_then_main conf ec2 names cont = ⟨1, [e], [], i + 1⟩ := by
  unfold find_instances_then_main
  rw [drainFailFast_of_first_error _ _ _ _ hi he]

/-- Witness for the amended C1 at a concrete resolver, client, name list and
continuation. -/
theorem C1_main_witness :
    firstErrorIdx (["bad.example", "a.example"].map (find_instances (.ok dnsDemo) ec2Demo)) =
      some 0 ∧
    firstErrorOf (["bad.example", "a.example"].map (find_instances (.ok dnsDemo) ec2Demo)) =
      some (.ResolveError "no such host") ∧
    find_instances_then_main (.ok dnsDemo) ec2Demo ["bad.example", "a.example"]
        (fun _ => 0) =
      ⟨1, [.ResolveError "no such host"], [], 0 + 1⟩ :=
  ⟨by decide, by decide,
    C1_main_orchestrator_fail_fast _ _ _ _ _ _ (by decide) (by decide)⟩

/-- C2: evaluation of the set_no_stop_before tag computation at a concrete
--time invocation.  The code adds the distance of the parsed absolute time
from the Unix epoch to the current time, so with now 2024-01-01T00:00:00Z and
--time 2020-01-01T00:00:00Z the tag value becomes 2073-12-31T00:00:00Z rather
than the claimed 2020-01-01T00:00:00Z; the --duration branch agrees with the
claim. -/
theorem C2_time_branch_evaluation :
    no_stop_tag_value 1704067200 none (some 1577836800) = .ok "2073-12-31T00:00:00Z" ∧
    claimed_no_stop_tag_value 1704067200 none (some 1577836800) = .ok "2020-01-01T00:00:00Z" ∧
    no_stop_tag_value 1704067200 none (some 1577836800) ≠
      claimed_no_stop_tag_value 1704067200 none (some 1577836800) ∧
    no_stop_tag_value 1704067200 (some 3600) none = .ok "2024-01-01T01:00:00Z" :=
  ⟨by decide, by decide, by decide, by decide⟩

/-- C3: when every per-name resolution succeeds, find_instances_then invokes
the continuation exactly once, with the union of the per-name instance-id
sets deduplicated and sorted lexicographically; an empty name list (or one
whose names all resolve to the empty set) yields the empty list, not an
error. -/
theorem C3_orchestrator_success_invokes_once
    (conf : Except Error DnsResolver) (ec2 : Ec2Client) (names : List String)
    (cont : List String → Except Error Unit)
    (h : firstErrorOf (names.map (find_instances conf ec2)) = none) :
    ∃ ids : List String,
      (find_instances_then conf ec2 names cont).invocations = [ids] ∧
      (find_instances_then conf ec2 names cont).result = cont ids ∧
      ids.Sorted (· ≤ ·) ∧ ids.Nodup ∧
      ids.toFinset = unionOks (names.map (find_instances conf ec2)) ∧
      (names = [] → ids = []) := by
  refine ⟨Finset.sort (· ≤ ·) (unionOks (names.map (find_instances conf ec2))),
    ?_, ?_, Finset.sort_sorted _ _, Finset.sort_nodup _ _, Finset.sort_toFinset _ _, ?_⟩
  · rw [find_instances_then_eq, h]
  · rw [find_instances_then_eq, h]
  · intro hn
    subst hn
    simp [unionOks, Finset.sort_empty]

/-- Witness for C3 at a concrete resolver and client where both names
resolve, with overlapping instance sets. -/
theorem C3_witness :
    firstErrorOf (["a.example", "b.example"].map (find_instances (.ok dnsDemo) ec2Demo)) =
      none ∧
    (∃ ids : List String,
      (find_instances_then (.ok dnsDemo) ec2Demo ["a.example", "b.example"]
          (fun _ => .ok ())).invocations = [ids] ∧
      (find_instances_then (.ok dnsDemo) ec2Demo ["a.example", "b.example"]
          (fun _ => .ok ())).result = (fun _ => Except.ok ()) ids ∧
      ids.Sorted (· ≤ ·) ∧ ids.Nodup ∧
      ids.toFinset =
        unionOks (["a.example", "b.example"].map (find_instances (.ok dnsDemo) ec2Demo)) ∧
      (["a.example", "b.example"] = ([] : List String) → ids = [])) :=
  ⟨by decide, C3_orchestrator_success_invokes_once _ _ _ _ (by decide)⟩

/-- C4: the Pagination Collector drains every page on success, returning the
set of all instance ids found across all pages (so the empty set on zero
matches, never an error), and on a page-fetch failure returns only the first
page error, with every already-collected id discarded; on the example pages
i1,i2 and i3 it returns the three ids. -/
theorem C4_pagination_collector_drains_pages (ec2 : Ec2Client) (filter : Ec2Filter) :
    (get_instance_ids_by_filter ec2 filter =
      match firstPageError (ec2.pages filter) with
      | some e => .error e
      | none => .ok (pagesUnion ((ec2.pages filter).filterMap Except.toOption))) ∧
    get_instance_ids_by_filter ec2TwoPages { name := "ip-address", values := ["203.0.113.5"] } =
      .ok {"i1", "i2", "i3"} := by
  constructor
  · exact collectPages_spec (ec2.pages filter) ∅
  · decide

/-- C5: for every IPv6 address the four IPv4-only strategies return the empty
set with no query issued, and only netif-ipv6 issues a query (exactly its one
filter); for every IPv4 address netif-ipv6 returns the empty set with no query
issued; no short-circuit is an error. -/
theorem C5_strategy_applicability (ec2 : Ec2Client) (addr4 addr6 : String) :
    find_instances_by_public_ipv4 ec2 (.v6 addr6) = (.ok ∅, []) ∧
    find_instances_by_public_eip_ipv4 ec2 (.v6 addr6) = (.ok ∅, []) ∧
    find_instances_by_private_ipv4 ec2 (.v6 addr6) = (.ok ∅, []) ∧
    find_instances_by_private_netif_ipv4 ec2 (.v6 addr6) = (.ok ∅, []) ∧
    (find_instances_by_netif_ipv6 ec2 (.v6 addr6)).snd =
      [{ name := "network-interface.ipv6-addresses.ipv6-address", values := [addr6] }] ∧
    find_instances_by_netif_ipv6 ec2 (.v4 addr4) = (.ok ∅, []) :=
  ⟨rfl, rfl, rfl, rfl, rfl, rfl⟩

/-- C6 counterexample: on a client where the first two dispatched strategies
both fail with distinct errors, find_instances_by_ip returns the error of the
first strategy in dispatch order even under a completion order in which the
second strategy completes first, so the claimed completion-order selection is
false at this input. -/
theorem C6_counterexample :
    (find_instances_by_ip ec2TwoFail (.v4 "192.0.2.7")).fst =
      .error (.Runtime "public-ip query failed") ∧
    firstErrorInCompletionOrder [1, 0, 2, 3, 4] (byIpBranches ec2TwoFail (.v4 "192.0.2.7")) =
      some (.Runtime "public-eip query failed") ∧
    Error.Runtime "public-ip query failed" ≠ Error.Runtime "public-eip query failed" :=
  ⟨by decide, by decide, by decide⟩

/-- C6 (amended): when at least one of the five strategies fails,
find_instances_by_ip fails with the first strategy error in dispatch order
(FuturesOrdered yields results in push order, not completion order), and the
drain loop consumes exactly the branches up to and including the first failing
one, never awaiting the later ones. -/
theorem C6_by_ip_fail_fast_dispatch_order (ec2 : Ec2Client) (address : IpAddr)
    (e : Error) (i : Nat)
    (hi : firstErrorIdx (byIpBranches ec2 address) = some i)
    (he : firstErrorOf (byIpBranches ec2 address) = some e) :
    find_instances_by_ip ec2 address = (.error e, i + 1) :=
  drainFailFast_of_first_error _ _ _ _ hi he

/-- Witness for the amended C6 at the two-failure demo client. -/
theorem C6_witness :
    firstErrorIdx (byIpBranches ec2TwoFail (.v4 "192.0.2.7")) = some 0 ∧
    firstErrorOf (byIpBranches ec2TwoFail (.v4 "192.0.2.7")) =
      some (.Runtime "public-ip query failed") ∧
    find_instances_by_ip ec2TwoFail (.v4 "192.0.2.7") =
      (.error (.Runtime "public-ip query failed"), 0 + 1) :=
  ⟨by decide, by decide,
    C6_by_ip_fail_fast_dispatch_order _ _ _ _ (by decide) (by decide)⟩

/-- C7: find_instances fails with the DNS collaborator error when resolver
construction or name resolution fails, otherwise fails with the first
Per-Address Resolver error, and on success returns the union of all
Per-Address Resolver results; a name resolving to zero addresses yields the
empty instance set, not an error. -/
theorem C7_find_instances_contract (conf : Except Error DnsResolver) (ec2 : Ec2Client)
    (name : String) :
    (find_instances conf ec2 name =
      match conf with
      | .error e => .error e
      | .ok resolver =>
        match resolver.lookup_ip name with
        | .error e => .error e
        | .ok ip_addrs =>
          match firstErrorOf (ip_addrs.map fun ip => (find_instances_by_ip ec2 ip).fst) with
          | some e => .error e
          | none =>
            .ok (unionOks (ip_addrs.map fun ip => (find_instances_by_ip ec2 ip).fst))) ∧
    find_instances (.ok ⟨fun _ => .ok []⟩) ec2 name = .ok ∅ := by
  constructor
  · cases conf with
    | error e => rfl
    | ok resolver =>
      cases hl : resolver.lookup_ip name with
      | error e => simp [find_instances, hl]
      | ok ip_addrs =>
        simp only [find_instances, hl]
        rw [drainFailFast_fst]
        cases firstErrorOf (ip_addrs.map fun ip => (find_instances_by_ip ec2 ip).fst) <;> simp
  · rfl

/-- C8: the start, stop and terminate continuations print exactly one line per
reported instance state change, each line being the instance id, a colon, the
previous state, an arrow and the current state, with a missing id or state
name rendered as the empty string rather than omitted; the example transition
(i1, pending to running) prints exactly the expected line. -/
theorem C8_state_change_lines (changes : List InstanceStateChange) :
    (print_instance_state_changes (some changes)).length = changes.length ∧
    print_instance_state_changes (some changes) = changes.map specTransitionLine ∧
    print_instance_state_changes none = [] ∧
    print_instance_state_changes
        (some [⟨some "i1", some ⟨some "pending"⟩, some ⟨some "running"⟩⟩]) =
      ["i1: pending -> running"] := by
  refine ⟨by simp [print_instance_state_changes], ?_, rfl, rfl⟩
  simp [print_instance_state_changes, specTransitionLine, instance_state_to_string_eq]

/-- C9: on a successful paged response the Pagination Collector treats an
absent reservations list and an absent instances list as empty and silently
skips any instance whose id is absent: the returned set holds exactly the
present instance ids, and an id-less instance produces neither an entry nor an
error. -/
theorem C9_pagination_collector_present_ids (ec2 : Ec2Client) (filter : Ec2Filter)
    (outs : List DescribeInstancesOutput)
    (h : ec2.pages filter = outs.map Except.ok) :
    ∃ s : Finset String, get_instance_ids_by_filter ec2 filter = .ok s ∧
      ∀ id : String, id ∈ s ↔ ∃ out ∈ outs, ∃ res ∈ out.reservations.getD [],
        ∃ inst ∈ res.instances.getD [], inst.instance_id = some id := by
  refine ⟨pagesUnion outs, ?_, ?_⟩
  · unfold get_instance_ids_by_filter
    rw [h, collectPages_spec, firstPageError_map_ok, filterMap_toOption_map_ok]
    rfl
  · intro id
    simp [pagesUnion, mem_foldl_pageInstanceIds]

/-- Witness for C9 at the degenerate demo client. -/
theorem C9_witness :
    (ec2Degenerate.pages { name := "ip-address", values := ["198.51.100.7"] } =
      [outMissing, outMixed].map Except.ok) ∧
    (∃ s : Finset String,
      get_instance_ids_by_filter ec2Degenerate
          { name := "ip-address", values := ["198.51.100.7"] } = .ok s ∧
      ∀ id : String, id ∈ s ↔ ∃ out ∈ [outMissing, outMixed],
        ∃ res ∈ out.reservations.getD [],
          ∃ inst ∈ res.instances.getD [], inst.instance_id = some id) :=
  ⟨rfl, C9_pagination_collector_present_ids _ _ _ rfl⟩

/-- C10: with per-name resolution a function of the name alone (as it is of
the resolver and client here), the instance-id list passed to the continuation
depends only on the set of distinct names: the invocation log is unchanged
under permuting the name list and under duplicating a name in it. -/
theorem C10_orchestrator_name_set_invariance
    (conf : Except Error DnsResolver) (ec2 : Ec2Client)
    (cont : List String → Except Error Unit) (l₁ l₂ l : List String) (x : String)
    (h : l₁.Perm l₂) :
    (find_instances_then conf ec2 l₁ cont).invocations =
      (find_instances_then conf ec2 l₂ cont).invocations ∧
    (find_instances_then conf ec2 (x :: x :: l) cont).invocations =
      (find_instances_then conf ec2 (x :: l) cont).invocations := by
  constructor
  · have hperm : (l₁.map (find_instances conf ec2)).Perm (l₂.map (find_instances conf ec2)) :=
      h.map _
    rw [find_instances_then_invocations, find_instances_then_invocations]
    have hiff := firstErrorOf_none_iff_of_perm hperm
    cases h₁ : firstErrorOf (l₁.map (find_instances conf ec2)) with
    | some e =>
      cases h₂ : firstErrorOf (l₂.map (find_instances conf ec2)) with
      | some f => rfl
      | none => exact absurd (hiff.mpr h₂) (by simp [h₁])
    | none =>
      rw [hiff.mp h₁, unionOks_perm hperm]
  · rw [find_instances_then_invocations, find_instances_then_invocations]
    simp only [List.map_cons]
    rw [firstErrorOf_cons_self, unionOks_cons_self]

/-- Witness for C10 at a concrete permutation and duplication. -/
theorem C10_witness :
    (["a.example", "b.example"].Perm ["b.example", "a.example"]) ∧
    ((find_instances_then (.ok dnsDemo) ec2Demo ["a.example", "b.example"]
          (fun _ => .ok ())).invocations =
        (find_instances_then (.ok dnsDemo) ec2Demo ["b.example", "a.example"]
          (fun _ => .ok ())).invocations ∧
      (find_instances_then (.ok dnsDemo) ec2Demo ["a.example", "a.example", "b.example"]
          (fun _ => .ok ())).invocations =
        (find_instances_then (.ok dnsDemo) ec2Demo ["a.example", "b.example"]
          (fun _ => .ok ())).invocations) :=
  ⟨List.Perm.swap _ _ _,
    C10_orchestrator_name_set_invariance _ _ _ _ _ _ _ (List.Perm.swap _ _ _)⟩

end Ec2ByName
